import Mathlib

/-!
Shallow embedding of the item-access core of the `assignments` FastAPI
service (directory `1/` of the repository): data model (`models.py`),
validation schemas (`schemas.py`), store operations (`crud.py`) and
token-based authentication (`auth.py`).  Persistent state is modelled as an
explicit `DB` value threaded through the operations; fallible operations
return `Option`.
-/

namespace Assignments

/-- `models.py`, class `User`: one row of the `users` table. -/
structure User where
  id : Nat
  username : String
  full_name : Option String
  hashed_password : String
deriving DecidableEq

/-- `models.py`, class `Item`: one row of the `items` table, with the
`owner` relationship represented by the `owner_id` foreign key. -/
structure Item where
  id : Nat
  title : String
  description : Option String
  owner_id : Nat
deriving DecidableEq

/-- The persistent store: the two tables plus the primary-key counter the
database uses to assign the next item id. -/
structure DB where
  users : List User
  items : List Item
  nextItemId : Nat
deriving DecidableEq

/-- `schemas.py`, class `ItemCreate` (inherits `ItemBase`): payload of a
create request, after structural parsing. -/
structure ItemCreate where
  title : String
  description : Option String
deriving DecidableEq

/-- `schemas.py`, class `ItemUpdate`: partial patch; absent fields are
`none`. -/
structure ItemUpdate where
  title : Option String
  description : Option String
deriving DecidableEq

/-- `schemas.py`, class `UserOut`: the identity object handed to route
handlers by `get_current_user`. -/
structure UserOut where
  id : Nat
  username : String
  full_name : Option String
deriving DecidableEq

/-- One character of the allow-list in `ItemBase.title`'s regex pattern
`^[A-Za-z0-9 '\-_,\.]+$` (`schemas.py` line 25). -/
def allowedTitleChar (c : Char) : Bool :=
  (decide ('A' ≤ c) && decide (c ≤ 'Z')) ||
  (decide ('a' ≤ c) && decide (c ≤ 'z')) ||
  (decide ('0' ≤ c) && decide (c ≤ '9')) ||
  c == ' ' || c == '\'' || c == '-' || c == '_' || c == ',' || c == '.'

/-- Python's substring test `needle in hay` on lists of characters. -/
def containsSub : List Char → List Char → Bool
  | [], needle => needle.isEmpty
  | c :: t, needle => needle.isPrefixOf (c :: t) || containsSub t needle

/-- Python's `str.lower()` restricted to the characters we model, as the
character list of the lowered string. -/
def lowerStr (s : String) : List Char :=
  s.toList.map Char.toLower

/-- The banned-substring denylist of `ItemBase.no_banned_words`
(`schemas.py` line 31). -/
def bannedWords : List String := ["badword"]

/-- Validation of `ItemBase.title` (`schemas.py` lines 21-34): length
3-200, every character in the allow-list (the regex also demands at least
one character, subsumed by the minimum length), and no banned word occurs
in the lower-cased title. -/
def itemBaseTitleOk (t : String) : Bool :=
  decide (3 ≤ t.length) && decide (t.length ≤ 200) &&
  t.toList.all allowedTitleChar &&
  !(bannedWords.any fun b => containsSub (lowerStr t) b.toList)

/-- Validation of the optional `description` field (`schemas.py` lines 27
and 43): at most 2000 characters when present. -/
def descriptionOk : Option String → Bool
  | none => true
  | some d => decide (d.length ≤ 2000)

/-- Whether an `ItemCreate` payload passes the `ItemBase` validators. -/
def itemCreateValid (x : ItemCreate) : Bool :=
  itemBaseTitleOk x.title && descriptionOk x.description

/-- Whether an `ItemUpdate` payload passes the `ItemUpdate` validators
(`schemas.py` lines 41-49): a present title only has its length checked
(3-200; the extra `title_validator` re-checks the minimum length), and the
pattern and banned-word checks of `ItemBase` are not applied. -/
def itemUpdateValid (x : ItemUpdate) : Bool :=
  (match x.title with
   | none => true
   | some t => decide (3 ≤ t.length) && decide (t.length ≤ 200)) &&
  descriptionOk x.description

/-- `crud.py`, `fake_hash_password`. -/
def fake_hash_password (password : String) : String :=
  "fakehashed" ++ password

/-- `crud.py`, `get_user_by_username`: first row of the `users` table whose
`username` column equals the argument. -/
def get_user_by_username (db : DB) (username : String) : Option User :=
  db.users.find? fun u => u.username == username

/-- `crud.py`, `create_item`: raises (here `none`, leaving the store
unchanged) when the owner username resolves to no stored user; otherwise
inserts and returns the new item bound to that owner. -/
def create_item (db : DB) (item_in : ItemCreate) (owner_username : String) :
    Option (DB × Item) :=
  match get_user_by_username db owner_username with
  | none => none
  | some owner =>
    let item : Item :=
      { id := db.nextItemId
        title := item_in.title
        description := item_in.description
        owner_id := owner.id }
    some ({ db with
            items := db.items ++ [item]
            nextItemId := db.nextItemId + 1 }, item)

/-- `crud.py`, `get_item`: first row of the `items` table with the given
primary key. -/
def get_item (db : DB) (item_id : Nat) : Option Item :=
  db.items.find? fun it => it.id == item_id

/-- SQL `LIKE` pattern matching over lower-cased character lists: `%`
matches any (possibly empty) sequence, `_` any single character, anything
else itself. -/
def likeMatch : List Char → List Char → Bool
  | [], cs => cs.isEmpty
  | p :: ps, cs =>
    if p == '%' then cs.tails.any fun t => likeMatch ps t
    else
      match cs with
      | [] => false
      | c :: cs' => (p == '_' || p == c) && likeMatch ps cs'

/-- The pattern `f"%{q}%"` built by `get_items` (`crud.py` line 59). -/
def searchPattern (q : String) : List Char :=
  '%' :: q.toList ++ ['%']

/-- SQL `ILIKE`: case-insensitive `LIKE`, realised by lower-casing both the
pattern and the column value. `NULL` columns never match; the caller
handles that case. -/
def ilike (s : String) (patt : List Char) : Bool :=
  likeMatch (patt.map Char.toLower) (lowerStr s)

/-- The filter condition of `get_items` (`crud.py` lines 60-61): the term
appears, `ILIKE`-wise, in the title or in the (non-`NULL`) description. -/
def matchesSearch (q : String) (it : Item) : Bool :=
  ilike it.title (searchPattern q) ||
  (match it.description with
   | none => false
   | some d => ilike d (searchPattern q))

/-- The rows the `get_items` filter keeps (`crud.py` lines 58-61); Python's
`if q:` skips the filter both for `None` and for the empty string. -/
def filteredItems (db : DB) (q : Option String) : List Item :=
  match q with
  | none => db.items
  | some s => if s == "" then db.items else db.items.filter (matchesSearch s)

/-- The attribute names declared on the `Item` model in `models.py`, used
here for the sort-column choice of `get_items`.  The code's actual probe is
`hasattr(models.Item, sort_by)` (`crud.py` line 65), which is also true for
names the declarative machinery inherits (`metadata`, `registry`,
`__tablename__`, dunders); for those the subsequent `asc(getattr(...))`
raises inside the SQL layer instead of ordering.  This embedding of
`get_items` therefore covers only the executions that do not raise: the
declared attribute names and the silent fall-back to `id` for names that
are no attribute at all. -/
def itemModelAttrs : List String :=
  ["id", "title", "description", "owner_id", "owner"]

/-- A total order on strings modelling SQL text ordering. -/
def strLe (a b : String) : Bool :=
  a == b || decide (a < b)

/-- Ordering on a nullable text column; SQLite places `NULL`s first in
ascending order. -/
def optStrLe : Option String → Option String → Bool
  | none, _ => true
  | some _, none => false
  | some a, some b => strLe a b

/-- The comparator for one sort column of the `items` table.  The `owner`
relationship attribute is modelled as ordering by its foreign-key column;
every name outside the model's attributes is the `id` fallback of
`get_items`. -/
def colLe (name : String) (a b : Item) : Bool :=
  if name == "title" then strLe a.title b.title
  else if name == "description" then optStrLe a.description b.description
  else if name == "owner_id" then decide (a.owner_id ≤ b.owner_id)
  else if name == "owner" then decide (a.owner_id ≤ b.owner_id)
  else decide (a.id ≤ b.id)

/-- Insertion step of the deterministic sort used to model the SQL
`ORDER BY`. -/
def insertSorted (le : Item → Item → Bool) (x : Item) : List Item → List Item
  | [] => [x]
  | y :: ys => if le x y then x :: y :: ys else y :: insertSorted le x ys

/-- Deterministic sort modelling the SQL `ORDER BY` of `get_items`. -/
def sortItems (le : Item → Item → Bool) : List Item → List Item
  | [] => []
  | x :: xs => insertSorted le x (sortItems le xs)

/-- `crud.py`, `get_items`: filter by search term, count the matches with a
separate un-joined, un-paginated count query, sort by the requested column
(falling back to `id` when the name is not an `Item` attribute, descending
only for `order == "desc"`), join with the `users` table, then apply
offset and limit.  Returns the page and the total. -/
def get_items (db : DB) (q : Option String) (limit offset : Nat)
    (sort_by : Option String) (order : Option String) : List Item × Nat :=
  let filtered := filteredItems db q
  let total := filtered.length
  let joined := filtered.filter fun it => db.users.any fun u => u.id == it.owner_id
  let col :=
    match sort_by with
    | none => "id"
    | some sb => if itemModelAttrs.contains sb then sb else "id"
  let le : Item → Item → Bool :=
    if order == some "desc" then (fun a b => colLe col b a) else colLe col
  (((sortItems le joined).drop offset).take limit, total)

/-- The ownership join of `update_item`/`delete_item` (`crud.py` lines 83
and 104): some user row both owns the item and carries the caller's
username. -/
def ownedBy (db : DB) (it : Item) (owner_username : String) : Bool :=
  db.users.any fun u => u.id == it.owner_id && u.username == owner_username

/-- The shared lookup of `update_item` and `delete_item`: first item with
the requested id that the caller owns. -/
def findOwnedItem (db : DB) (item_id : Nat) (owner_username : String) :
    Option Item :=
  db.items.find? fun it => it.id == item_id && ownedBy db it owner_username

/-- The partial patch of `update_item` (`crud.py` lines 92-95): each field
is overwritten only when present in the payload. -/
def applyPatch (item_in : ItemUpdate) (it : Item) : Item :=
  { it with
    title := match item_in.title with | some t => t | none => it.title
    description :=
      match item_in.description with
      | some d => some d
      | none => it.description }

/-- `crud.py`, `update_item`: `none` when no item with that id is owned by
the caller, otherwise the patched item is persisted and returned. -/
def update_item (db : DB) (item_id : Nat) (item_in : ItemUpdate)
    (owner_username : String) : Option (DB × Item) :=
  match findOwnedItem db item_id owner_username with
  | none => none
  | some it =>
    let it' := applyPatch item_in it
    some ({ db with
            items := db.items.map fun j => if j.id == it.id then it' else j },
          it')

/-- `crud.py`, `delete_item`: `false` when no item with that id is owned by
the caller, otherwise the row is removed and `true` returned. -/
def delete_item (db : DB) (item_id : Nat) (owner_username : String) :
    DB × Bool :=
  match findOwnedItem db item_id owner_username with
  | none => (db, false)
  | some it =>
    ({ db with items := db.items.filter fun j => !(j.id == it.id) }, true)

/-- `auth.py`, `authenticate_user_and_get_token`: the stored-hash
comparison runs first; on failure (or absence of a stored user) the fixed
`"alice"`/`"secret"` pair still yields a token. -/
def authenticate_user_and_get_token (db : DB) (username password : String) :
    Option String :=
  if (match get_user_by_username db username with
      | some user => user.hashed_password == fake_hash_password password
      | none => false) then
    some ("token-" ++ username)
  else if username == "alice" && password == "secret" then
    some ("token-" ++ username)
  else
    none

/-- Python's `str.startswith` on character lists. -/
def startsWithChars : List Char → List Char → Bool
  | [], _ => true
  | _ :: _, [] => false
  | p :: ps, c :: cs => p == c && startsWithChars ps cs

/-- Python's `s.split(sep, 1)[1]`: everything after the first occurrence of
the separator, `none` when the separator does not occur. -/
def splitRest : List Char → Char → Option (List Char)
  | [], _ => none
  | c :: rest, sep => if c == sep then some rest else splitRest rest sep

/-- The token-to-username step of `get_current_user` (`auth.py` lines
27-29): reject an empty token or one without the `token-` prefix, then
take everything after the first `-`. -/
def tokenUsername (token : String) : Option String :=
  if token == "" || !(startsWithChars "token-".toList token.toList) then none
  else (splitRest token.toList '-').map fun cs => String.mk cs

/-- `auth.py`, `get_current_user`: resolve the token to a username, then to
a stored user, with the synthetic fallback identity for `"alice"`. -/
def get_current_user (db : DB) (token : String) : Option UserOut :=
  match tokenUsername token with
  | none => none
  | some username =>
    match get_user_by_username db username with
    | some u => some { id := u.id, username := u.username, full_name := u.full_name }
    | none =>
      if username == "alice" then
        some { id := 0, username := "alice", full_name := some "Alice Dev" }
      else none

/-! Helper lemmas about the `LIKE` matcher and substring search. -/

/-- A character list free of the SQL `LIKE` wildcard characters. -/
def noWildcards (cs : List Char) : Bool :=
  cs.all fun c => !(c == '%') && !(c == '_')

/-- The empty suffix always witnesses that `%` matches the rest. -/
theorem tails_any_isEmpty (cs : List Char) :
    (cs.tails.any fun t => t.isEmpty) = true := by
  induction cs with
  | nil => rfl
  | cons c t ih => simp [List.tails, List.any_cons, ih]

/-- The pattern consisting of a single `%` matches every string. -/
theorem likeMatch_pct (cs : List Char) : likeMatch ['%'] cs = true := by
  simp [likeMatch]

/-- A wildcard-free pattern followed by `%` matches exactly the strings it
is a prefix of. -/
theorem likeMatch_lit_pct (ps : List Char) (hps : noWildcards ps = true) :
    ∀ t : List Char, likeMatch (ps ++ ['%']) t = ps.isPrefixOf t := by
  induction ps with
  | nil =>
    intro t
    simp [likeMatch_pct t, List.isPrefixOf]
  | cons p ps ih =>
    intro t
    rw [noWildcards, List.all_cons, Bool.and_eq_true, Bool.and_eq_true] at hps
    obtain ⟨⟨hp1, hp2⟩, hps'⟩ := hps
    rw [Bool.not_eq_true'] at hp1 hp2
    cases t with
    | nil => simp [likeMatch, hp1, List.isPrefixOf]
    | cons c cs' =>
      simp [likeMatch, hp1, hp2, List.isPrefixOf, ih hps' cs']

/-- Scanning all suffixes for a prefix occurrence is exactly the substring
test. -/
theorem tails_any_isPrefixOf (cs ps : List Char) :
    (cs.tails.any fun t => ps.isPrefixOf t) = containsSub cs ps := by
  induction cs with
  | nil => cases ps <;> simp [containsSub, List.isPrefixOf, List.isEmpty]
  | cons c t ih => simp [containsSub, List.tails, List.any_cons, ih]

/-- For a wildcard-free term, the `%term%` pattern matches exactly the
strings containing the term. -/
theorem likeMatch_wrapped (ps cs : List Char) (hps : noWildcards ps = true) :
    likeMatch ('%' :: ps ++ ['%']) cs = containsSub cs ps := by
  have h1 := likeMatch_lit_pct ps hps
  calc likeMatch ('%' :: ps ++ ['%']) cs
      = cs.tails.any (fun t => likeMatch (ps ++ ['%']) t) := by simp [likeMatch]
    _ = cs.tails.any (fun t => ps.isPrefixOf t) := by
        congr 1
        funext t
        exact h1 t
    _ = containsSub cs ps := tails_any_isPrefixOf cs ps

/-- Evaluation of `Char.ofNat` at a valid code point. -/
theorem char_toNat_ofNat_valid (m : Nat) (h : m.isValidChar) :
    (Char.ofNat m).toNat = m := by
  rw [Char.ofNat, dif_pos h]
  rfl

/-- Lower-casing cannot produce, hide or reveal a character that is neither
an upper-case nor a lower-case basic latin letter (such as `%` or `_`). -/
theorem toLower_beq_low (c w : Char) (h1 : w.toNat < 97)
    (h2 : w.toNat < 65 ∨ 90 < w.toNat) :
    (Char.toLower c == w) = (c == w) := by
  unfold Char.toLower
  show ((if c.toNat ≥ 65 ∧ c.toNat ≤ 90 then Char.ofNat (c.toNat + 32) else c) == w)
      = (c == w)
  by_cases h : c.toNat ≥ 65 ∧ c.toNat ≤ 90
  case pos =>
    obtain ⟨ha, hb⟩ := h
    rw [if_pos ⟨ha, hb⟩]
    have hval : (Char.ofNat (c.toNat + 32)).toNat = c.toNat + 32 :=
      char_toNat_ofNat_valid _ (Or.inl (by omega))
    have e1 : (Char.ofNat (c.toNat + 32) == w) = false := by
      rw [beq_eq_false_iff_ne]
      intro heq
      rw [heq] at hval
      omega
    have e2 : (c == w) = false := by
      rw [beq_eq_false_iff_ne]
      intro heq
      subst heq
      omega
    rw [e1, e2]
  case neg =>
    rw [if_neg h]

/-- Lower-casing a character list neither creates nor removes `LIKE`
wildcards. -/
theorem noWildcards_lower (cs : List Char) :
    noWildcards (cs.map Char.toLower) = noWildcards cs := by
  unfold noWildcards
  induction cs with
  | nil => rfl
  | cons c t ih =>
    rw [List.map_cons, List.all_cons, List.all_cons, ih,
        toLower_beq_low c '%' (by decide) (by decide),
        toLower_beq_low c '_' (by decide) (by decide)]

/-- The specification-side reading of the search filter: the term occurs as
a case-insensitive substring of the title or of the description.  This is
the predicate the spec describes; it is compared against the `ILIKE`
condition the code actually builds. -/
def ciSubstrMatch (q : String) (it : Item) : Bool :=
  containsSub (lowerStr it.title) (lowerStr q) ||
  (match it.description with
   | none => false
   | some d => containsSub (lowerStr d) (lowerStr q))

/-- For a wildcard-free term, the `ILIKE '%term%'` condition on one column
is exactly the case-insensitive substring test. -/
theorem ilike_search_eq_substr (s q : String)
    (hq : noWildcards q.toList = true) :
    ilike s (searchPattern q) = containsSub (lowerStr s) (lowerStr q) := by
  unfold ilike searchPattern
  have hmap : ('%' :: q.toList ++ ['%']).map Char.toLower
      = '%' :: q.toList.map Char.toLower ++ ['%'] := by
    simp [show Char.toLower '%' = '%' from rfl]
  rw [hmap]
  have hq' : noWildcards (q.toList.map Char.toLower) = true := by
    rw [noWildcards_lower]
    exact hq
  exact likeMatch_wrapped _ _ hq'

/-- For a wildcard-free term the code's filter condition coincides with the
spec's substring condition. -/
theorem matchesSearch_eq_ciSubstr (q : String)
    (hq : noWildcards q.toList = true) (it : Item) :
    matchesSearch q it = ciSubstrMatch q it := by
  unfold matchesSearch ciSubstrMatch
  rw [ilike_search_eq_substr it.title q hq]
  cases it.description with
  | none => rfl
  | some d => simp only [ilike_search_eq_substr d q hq]

/-- The empty search term matches every row. -/
theorem containsSub_nil (hay : List Char) : containsSub hay [] = true := by
  cases hay <;> simp [containsSub, List.isPrefixOf]

/-- The `%%` pattern produced by an empty search term matches every
string. -/
theorem likeMatch_pct_pct (cs : List Char) : likeMatch ['%', '%'] cs = true := by
  rw [show likeMatch ['%', '%'] cs = cs.tails.any (fun t => likeMatch ['%'] t) from by
    simp [likeMatch]]
  rw [List.any_eq_true]
  exact ⟨cs, (List.mem_tails cs cs).mpr (List.suffix_refl cs), likeMatch_pct cs⟩

/-- The code's filter condition is vacuous for the empty term. -/
theorem matchesSearch_empty (it : Item) : matchesSearch "" it = true := by
  unfold matchesSearch ilike searchPattern
  have h : (('%' :: "".toList ++ ['%']).map Char.toLower) = ['%', '%'] := rfl
  rw [h, likeMatch_pct_pct]
  rfl

/-- Membership is preserved by the insertion step of the model sort. -/
theorem mem_insertSorted {x y : Item} {le : Item → Item → Bool}
    {l : List Item} : x ∈ insertSorted le y l ↔ x = y ∨ x ∈ l := by
  induction l with
  | nil => simp [insertSorted]
  | cons z zs ih =>
    unfold insertSorted
    split
    · simp
    · rw [List.mem_cons, ih, List.mem_cons]
      tauto

/-- The model sort permutes its input: membership is unchanged. -/
theorem mem_sortItems {x : Item} {le : Item → Item → Bool} {l : List Item} :
    x ∈ sortItems le l ↔ x ∈ l := by
  induction l with
  | nil => exact Iff.rfl
  | cons z zs ih =>
    rw [sortItems, mem_insertSorted, ih, List.mem_cons]

/-! Example stores used by witnesses and counterexamples. -/

/-- A stored user with a deterministic hash of the password `pw123`. -/
def bobUser : User :=
  { id := 1, username := "bob", full_name := none,
    hashed_password := "fakehashedpw123" }

/-- The single stored item of the example store. -/
def exItem : Item :=
  { id := 1, title := "abc", description := none, owner_id := 1 }

/-- Example store: `bob` owns the single item `abc`. -/
def dbEx : DB :=
  { users := [bobUser]
    items := [exItem]
    nextItemId := 2 }

/-- A store with no rows at all. -/
def dbEmpty : DB := { users := [], items := [], nextItemId := 1 }

/-- The predicate of the un-paginated count query of `get_items`: the
search filter when a term is given, vacuous otherwise. -/
def specMatches (q : Option String) (it : Item) : Bool :=
  match q with
  | none => true
  | some s => matchesSearch s it

/-- C6: the total returned by `get_items` does not depend on `limit` or
`offset`, and equals the number of stored items matching the filter. -/
theorem C6_total_count_pagination_invariant
    (db : DB) (q : Option String) (l1 o1 l2 o2 : Nat)
    (sb ord : Option String) :
    (get_items db q l1 o1 sb ord).2 = (get_items db q l2 o2 sb ord).2 ∧
    (get_items db q l1 o1 sb ord).2 = db.items.countP (specMatches q) := by
  constructor
  · rfl
  · show (filteredItems db q).length = _
    cases q with
    | none =>
      show db.items.length = _
      rw [eq_comm, List.countP_eq_length]
      intro a _
      rfl
    | some s =>
      by_cases hs : (s == "") = true
      · show (if s == "" then db.items else db.items.filter (matchesSearch s)).length = _
        rw [if_pos hs, eq_comm, List.countP_eq_length]
        intro a _
        show matchesSearch s a = true
        rw [eq_of_beq hs]
        exact matchesSearch_empty a
      · show (if s == "" then db.items else db.items.filter (matchesSearch s)).length = _
        rw [if_neg hs, List.countP_eq_length_filter]
        rfl

/-- C10: the fallback pair succeeds even when a stored `alice` row exists
whose hash does not match `secret`: the stored-hash comparison fails and
the independent fallback check still issues the token. -/
theorem C10_backdoor_survives_stored_alice (db : DB) (user : User)
    (hlook : get_user_by_username db "alice" = some user)
    (hmm : user.hashed_password ≠ fake_hash_password "secret") :
    authenticate_user_and_get_token db "alice" "secret" = some "token-alice" := by
  unfold authenticate_user_and_get_token
  rw [hlook]
  simp [hmm]

/-- A stored `alice` whose hash matches no password at all. -/
def staleAlice : User :=
  { id := 7, username := "alice", full_name := none,
    hashed_password := "nothash" }

/-- Store for the C10 witness: `alice` exists with a non-matching hash. -/
def dbStaleAlice : DB :=
  { users := [staleAlice], items := [], nextItemId := 1 }

/-- Witness for C10 at a concrete store. -/
theorem C10_witness :
    get_user_by_username dbStaleAlice "alice" = some staleAlice ∧
    staleAlice.hashed_password ≠ fake_hash_password "secret" ∧
    authenticate_user_and_get_token dbStaleAlice "alice" "secret" =
      some "token-alice" :=
  ⟨by decide, by decide,
   C10_backdoor_survives_stored_alice dbStaleAlice staleAlice (by decide) (by decide)⟩

/-- C7: when no stored user record matches the submitted pair, a token is
issued exactly for the fallback pair `alice`/`secret` and for no other
pair. -/
theorem C7_backdoor_only_pair (db : DB) (u p : String)
    (h : ∀ v ∈ db.users, v.username = u →
      v.hashed_password ≠ fake_hash_password p) :
    authenticate_user_and_get_token db u p =
      if u = "alice" ∧ p = "secret" then some ("token-" ++ u) else none := by
  unfold authenticate_user_and_get_token
  have hgate : (match get_user_by_username db u with
      | some user => user.hashed_password == fake_hash_password p
      | none => false) = false := by
    cases hfind : get_user_by_username db u with
    | none => rfl
    | some v =>
      have hfs : db.users.find? (fun w => w.username == u) = some v := hfind
      have hpv : (fun w => w.username == u) v = true :=
        @List.find?_some _ (fun w => w.username == u) v db.users hfs
      have hv : v.username = u := eq_of_beq hpv
      have hmem : v ∈ db.users := List.mem_of_find?_eq_some hfs
      simp only [beq_eq_false_iff_ne]
      exact h v hmem hv
  rw [hgate]
  by_cases hu : u = "alice"
  · by_cases hp : p = "secret"
    · subst hu
      subst hp
      simp
    · subst hu
      simp [hp]
  · simp [hu]

/-- Witness for C7: on the empty store, the fallback pair succeeds. -/
theorem C7_witness :
    (∀ v ∈ dbEmpty.users, v.username = "alice" →
      v.hashed_password ≠ fake_hash_password "secret") ∧
    authenticate_user_and_get_token dbEmpty "alice" "secret" =
      if ("alice" : String) = "alice" ∧ ("secret" : String) = "secret" then
        some ("token-" ++ "alice")
      else none :=
  ⟨by simp [dbEmpty], C7_backdoor_only_pair dbEmpty "alice" "secret" (by simp [dbEmpty])⟩

/-- C2: authenticating a registered user issues `token-<username>`, and the
token resolution step of `get_current_user` (split on the first `-`)
recovers exactly that username, even when it contains `-` itself, because
the literal prefix `token` contains no `-`. -/
theorem C2_token_roundtrip (db : DB) (u p : String) (user : User)
    (hlen1 : 3 ≤ u.length) (hlen2 : u.length ≤ 50)
    (hlook : get_user_by_username db u = some user)
    (hpw : user.hashed_password = fake_hash_password p) :
    authenticate_user_and_get_token db u p = some ("token-" ++ u) ∧
    tokenUsername ("token-" ++ u) = some u := by
  constructor
  · unfold authenticate_user_and_get_token
    rw [hlook]
    simp [hpw]
  · have hdata : ("token-" ++ u).toList
        = 't' :: 'o' :: 'k' :: 'e' :: 'n' :: '-' :: u.toList := by
      show ("token-" ++ u).data = _
      rw [String.data_append]
      rfl
    have hne : (("token-" ++ u) == "") = false := by
      rw [beq_eq_false_iff_ne]
      intro hcontra
      have hd := congrArg String.data hcontra
      rw [String.data_append] at hd
      simp at hd
    have hsw : startsWithChars "token-".toList ("token-" ++ u).toList = true := by
      rw [hdata]
      rfl
    have hcond : (("token-" ++ u) == "" ||
        !(startsWithChars "token-".toList ("token-" ++ u).toList)) = false := by
      rw [hne, hsw]
      rfl
    unfold tokenUsername
    rw [hcond, if_neg (by simp)]
    rw [hdata]
    rfl

/-- A registered user whose name contains a dash. -/
def dashUser : User :=
  { id := 2, username := "a-b", full_name := none,
    hashed_password := "fakehashedsecret1" }

/-- Store for the C2 witness. -/
def dbDash : DB := { users := [dashUser], items := [], nextItemId := 1 }

/-- Witness for C2 at the dashed username `a-b`. -/
theorem C2_witness :
    (3 ≤ ("a-b" : String).length ∧ ("a-b" : String).length ≤ 50 ∧
     get_user_by_username dbDash "a-b" = some dashUser ∧
     dashUser.hashed_password = fake_hash_password "secret1") ∧
    authenticate_user_and_get_token dbDash "a-b" "secret1" =
      some ("token-" ++ "a-b") ∧
    tokenUsername ("token-" ++ "a-b") = some "a-b" := by
  refine ⟨⟨by decide, by decide, by decide, by decide⟩, ?_⟩
  exact C2_token_roundtrip dbDash "a-b" "secret1" dashUser (by decide)
    (by decide) (by decide) (by decide)

/-- C1: for an item owned by `owner` and any caller other than the owner,
`update_item` and `delete_item` return exactly the not-found results
(`none`, `(db, false)`) that they return for an id with no item at all;
nothing distinguishes the two cases. -/
theorem C1_nonowner_indistinguishable (db : DB) (iid iid2 : Nat)
    (patch : ItemUpdate) (caller : String) (it : Item) (owner : User)
    (hit : it ∈ db.items) (hid : it.id = iid)
    (hiuniq : ∀ j ∈ db.items, j.id = iid → j = it)
    (hown : owner ∈ db.users) (hoid : owner.id = it.owner_id)
    (huuniq : ∀ v ∈ db.users, v.id = it.owner_id → v = owner)
    (hne : caller ≠ owner.username)
    (hmiss : ∀ j ∈ db.items, j.id ≠ iid2) :
    update_item db iid patch caller = none ∧
    delete_item db iid caller = (db, false) ∧
    update_item db iid2 patch caller = none ∧
    delete_item db iid2 caller = (db, false) := by
  have hfind1 : findOwnedItem db iid caller = none := by
    unfold findOwnedItem
    rw [List.find?_eq_none]
    intro j hj hcontra
    rw [Bool.and_eq_true] at hcontra
    obtain ⟨h1, h2⟩ := hcontra
    have hj_it : j = it := hiuniq j hj (eq_of_beq h1)
    subst hj_it
    unfold ownedBy at h2
    rw [List.any_eq_true] at h2
    obtain ⟨v, hv, hvp⟩ := h2
    rw [Bool.and_eq_true] at hvp
    have hveq : v = owner := huuniq v hv (eq_of_beq hvp.1)
    have hvu : v.username = caller := eq_of_beq hvp.2
    rw [hveq] at hvu
    exact hne hvu.symm
  have hfind2 : findOwnedItem db iid2 caller = none := by
    unfold findOwnedItem
    rw [List.find?_eq_none]
    intro j hj hcontra
    rw [Bool.and_eq_true] at hcontra
    exact hmiss j hj (eq_of_beq hcontra.1)
  refine ⟨?_, ?_, ?_, ?_⟩ <;>
    simp [update_item, delete_item, hfind1, hfind2]

/-- Witness for C1: `carol` can tell nothing about `bob`'s item 1 versus
the absent item 99. -/
theorem C1_witness :
    ("carol" ≠ bobUser.username ∧ exItem ∈ dbEx.items ∧
     bobUser ∈ dbEx.users) ∧
    update_item dbEx 1 { title := none, description := none } "carol" = none ∧
    delete_item dbEx 1 "carol" = (dbEx, false) ∧
    update_item dbEx 99 { title := none, description := none } "carol" = none ∧
    delete_item dbEx 99 "carol" = (dbEx, false) := by
  refine ⟨⟨by decide, by decide, by decide⟩, ?_⟩
  exact C1_nonowner_indistinguishable dbEx 1 99
    { title := none, description := none } "carol" exItem bobUser (by decide)
    (by decide) (by decide) (by decide) (by decide) (by decide) (by decide)
    (by decide)

/-- C8: `create_item` fails (raises, persisting nothing) exactly when the
owner username matches no stored user; when a unique stored user carries
that username, the created item is persisted with its owner reference set
to that user's id. -/
theorem C8_create_item_owner_resolution (db : DB) (inp : ItemCreate)
    (ow : String) :
    ((∀ v ∈ db.users, v.username ≠ ow) → create_item db inp ow = none) ∧
    (∀ u, u ∈ db.users → u.username = ow →
      (∀ v ∈ db.users, v.username = ow → v = u) →
      create_item db inp ow =
        some ({ db with
                items := db.items ++
                  [{ id := db.nextItemId, title := inp.title,
                     description := inp.description, owner_id := u.id }]
                nextItemId := db.nextItemId + 1 },
              { id := db.nextItemId, title := inp.title,
                description := inp.description, owner_id := u.id })) := by
  constructor
  · intro h
    have hnone : get_user_by_username db ow = none := by
      unfold get_user_by_username
      rw [List.find?_eq_none]
      intro v hv hcontra
      exact h v hv (eq_of_beq hcontra)
    unfold create_item
    rw [hnone]
  · intro u hu huser huniq
    have hsome : get_user_by_username db ow = some u := by
      cases hfind : get_user_by_username db ow with
      | none =>
        have hfind2 : db.users.find? (fun w => w.username == ow) = none := hfind
        have := List.find?_eq_none.mp hfind2 u hu
        exact absurd (beq_iff_eq.mpr huser) this
      | some v =>
        have hfs : db.users.find? (fun w => w.username == ow) = some v := hfind
        have hpv : (fun w => w.username == ow) v = true :=
          @List.find?_some _ (fun w => w.username == ow) v db.users hfs
        have hmem := List.mem_of_find?_eq_some hfs
        rw [huniq v hmem (eq_of_beq hpv)]
    unfold create_item
    rw [hsome]

/-- Witness for C8: creation fails on the empty store and succeeds for
`bob` on the example store. -/
theorem C8_witness :
    create_item dbEmpty { title := "abc", description := none } "bob" = none ∧
    create_item dbEx { title := "def", description := none } "bob" =
      some ({ dbEx with
              items := dbEx.items ++
                [{ id := dbEx.nextItemId, title := "def",
                   description := none, owner_id := bobUser.id }]
              nextItemId := dbEx.nextItemId + 1 },
            { id := dbEx.nextItemId, title := "def",
              description := none, owner_id := bobUser.id }) :=
  ⟨(C8_create_item_owner_resolution dbEmpty
      { title := "abc", description := none } "bob").1 (by decide),
   (C8_create_item_owner_resolution dbEx
      { title := "def", description := none } "bob").2 bobUser (by decide)
      (by decide) (by decide)⟩

/-- C9: for an item the caller owns, `update_item` overwrites exactly the
fields present in the patch, and never changes the id or the owner
reference. -/
theorem C9_update_applies_only_patch_fields (db : DB) (iid : Nat)
    (patch : ItemUpdate) (caller : String) (it : Item)
    (hit : it ∈ db.items) (hid : it.id = iid)
    (hiuniq : ∀ j ∈ db.items, j.id = iid → j = it)
    (hown : ownedBy db it caller = true) :
    update_item db iid patch caller =
      some ({ db with
              items := db.items.map fun j =>
                if j.id == it.id then applyPatch patch it else j },
            applyPatch patch it) ∧
    (patch.title = none → (applyPatch patch it).title = it.title) ∧
    (patch.description = none →
      (applyPatch patch it).description = it.description) ∧
    (applyPatch patch it).id = it.id ∧
    (applyPatch patch it).owner_id = it.owner_id := by
  have hfind : findOwnedItem db iid caller = some it := by
    unfold findOwnedItem
    cases hf : db.items.find? (fun j => j.id == iid && ownedBy db j caller) with
    | none =>
      exfalso
      apply List.find?_eq_none.mp hf it hit
      rw [Bool.and_eq_true]
      exact ⟨beq_iff_eq.mpr hid, hown⟩
    | some j =>
      have hpj : (fun j => j.id == iid && ownedBy db j caller) j = true :=
        @List.find?_some _ (fun j => j.id == iid && ownedBy db j caller) j
          db.items hf
      have hmem := List.mem_of_find?_eq_some hf
      rw [Bool.and_eq_true] at hpj
      rw [hiuniq j hmem (eq_of_beq hpj.1)]
  refine ⟨?_, ?_, ?_, rfl, rfl⟩
  · unfold update_item
    rw [hfind]
  · intro h
    unfold applyPatch
    rw [h]
  · intro h
    unfold applyPatch
    rw [h]

/-- Witness for C9: a description-only patch by `bob` leaves the title, id
and owner of item 1 unchanged. -/
theorem C9_witness :
    (exItem ∈ dbEx.items ∧ ownedBy dbEx exItem "bob" = true) ∧
    update_item dbEx 1 { title := none, description := some "newd" } "bob" =
      some ({ dbEx with
              items := dbEx.items.map fun j =>
                if j.id == exItem.id then
                  applyPatch { title := none, description := some "newd" }
                    exItem
                else j },
            applyPatch { title := none, description := some "newd" } exItem) ∧
    (applyPatch { title := none, description := some "newd" } exItem).title
      = exItem.title ∧
    (applyPatch { title := none, description := some "newd" } exItem).id
      = exItem.id ∧
    (applyPatch { title := none, description := some "newd" } exItem).owner_id
      = exItem.owner_id := by
  have h := C9_update_applies_only_patch_fields dbEx 1
    { title := none, description := some "newd" } "bob" exItem (by decide)
    (by decide) (by decide) (by decide)
  exact ⟨⟨by decide, by decide⟩, h.1, h.2.1 rfl, h.2.2.2.1, h.2.2.2.2⟩

/-- C3 is refuted as stated: a patch accepted by the `ItemUpdate`
validators (which check only the title length) can persist a title
containing the banned word, so the create-time title invariant is not
preserved by update.  Concretely, `bob` updates his valid item `abc` to
the title `badwordxx`. -/
theorem C3_counterexample :
    itemBaseTitleOk exItem.title = true ∧
    itemUpdateValid { title := some "badwordxx", description := none } = true ∧
    (update_item dbEx 1 { title := some "badwordxx", description := none }
        "bob").map (fun r => itemBaseTitleOk r.2.title) = some false := by
  decide

/-- C3 amended: `create_item` establishes the full title invariant (length
3-200, allow-listed characters, no banned word) for validated input, but
`update_item` with a validated patch preserves only the 3-200 length bound
of titles; the character-class and banned-word restrictions are not
re-checked on update. -/
theorem C3_amended_title_invariant (db : DB) (inp : ItemCreate) (ow : String)
    (iid : Nat) (patch : ItemUpdate) (caller : String) :
    (∀ db2 it, create_item db inp ow = some (db2, it) →
      itemCreateValid inp = true → itemBaseTitleOk it.title = true) ∧
    (∀ db2 it2, update_item db iid patch caller = some (db2, it2) →
      itemUpdateValid patch = true →
      (∀ j ∈ db.items, 3 ≤ j.title.length ∧ j.title.length ≤ 200) →
      (3 ≤ it2.title.length ∧ it2.title.length ≤ 200) ∧
      ∀ j ∈ db2.items, 3 ≤ j.title.length ∧ j.title.length ≤ 200) := by
  constructor
  · intro db2 it hc hvalid
    unfold create_item at hc
    cases hlook : get_user_by_username db ow with
    | none =>
      rw [hlook] at hc
      simp at hc
    | some o =>
      rw [hlook] at hc
      simp only [Option.some.injEq, Prod.mk.injEq] at hc
      obtain ⟨h1, h2⟩ := hc
      rw [← h2]
      rw [itemCreateValid, Bool.and_eq_true] at hvalid
      exact hvalid.1
  · intro db2 it2 hup hvalid hinv
    unfold update_item at hup
    cases hf : findOwnedItem db iid caller with
    | none =>
      rw [hf] at hup
      simp at hup
    | some it0 =>
      rw [hf] at hup
      simp only [Option.some.injEq, Prod.mk.injEq] at hup
      obtain ⟨hdb2, hit2⟩ := hup
      have hmem0 : it0 ∈ db.items := by
        have hfs : db.items.find?
            (fun j => j.id == iid && ownedBy db j caller) = some it0 := hf
        exact List.mem_of_find?_eq_some hfs
      have htitle : 3 ≤ (applyPatch patch it0).title.length ∧
          (applyPatch patch it0).title.length ≤ 200 := by
        unfold applyPatch
        cases hpt : patch.title with
        | none => exact hinv it0 hmem0
        | some t =>
          simp only [itemUpdateValid, hpt, Bool.and_eq_true,
            decide_eq_true_eq] at hvalid
          exact ⟨hvalid.1.1, hvalid.1.2⟩
      constructor
      · rw [← hit2]
        exact htitle
      · intro j hj
        rw [← hdb2] at hj
        simp only [List.mem_map] at hj
        obtain ⟨j0, hj0, hfeq⟩ := hj
        by_cases hcase : (j0.id == it0.id) = true
        · rw [if_pos hcase] at hfeq
          rw [← hfeq]
          exact htitle
        · rw [if_neg hcase] at hfeq
          rw [← hfeq]
          exact hinv j0 hj0

/-- Witness for the amended C3: the created title `Fine title` satisfies
the full invariant, and an update to `Also fine` keeps the length bound. -/
theorem C3_witness :
    itemBaseTitleOk ("Fine title" : String) = true ∧
    (3 ≤ ("Also fine" : String).length ∧
     ("Also fine" : String).length ≤ 200) := by
  have h := C3_amended_title_invariant dbEx
    { title := "Fine title", description := none } "bob" 1
    { title := some "Also fine", description := none } "bob"
  constructor
  · exact h.1
      { users := [bobUser], items := [exItem,
          { id := 2, title := "Fine title", description := none,
            owner_id := 1 }], nextItemId := 3 }
      { id := 2, title := "Fine title", description := none, owner_id := 1 }
      (by decide) (by decide)
  · exact (h.2
      { users := [bobUser], items :=
          [{ id := 1, title := "Also fine", description := none,
             owner_id := 1 }], nextItemId := 2 }
      { id := 1, title := "Also fine", description := none, owner_id := 1 }
      (by decide) (by decide) (by decide)).1

/-- C5 is refuted as stated: `%` in a search term is a `LIKE` wildcard, not
a literal character.  The term `a%c` returns the item titled `abc`
although `a%c` is not a substring of `abc` (nor of its absent
description). -/
theorem C5_counterexample :
    (get_items dbEx (some "a%c") 10 0 (some "id") (some "asc")).1 = [exItem] ∧
    ciSubstrMatch "a%c" exItem = false := by
  decide

/-- Every item of a returned page passed the search filter. -/
theorem mem_get_items_fst (db : DB) (q : Option String) (limit offset : Nat)
    (sb ord : Option String) {it : Item}
    (h : it ∈ (get_items db q limit offset sb ord).1) :
    it ∈ filteredItems db q := by
  simp only [get_items] at h
  have h1 := List.take_subset _ _ h
  have h2 := List.drop_subset _ _ h1
  rw [mem_sortItems] at h2
  exact (List.mem_filter.mp h2).1

/-- The empty search term also trivially satisfies the substring
predicate. -/
theorem ciSubstrMatch_empty (it : Item) : ciSubstrMatch "" it = true := by
  unfold ciSubstrMatch
  rw [show lowerStr "" = [] from rfl, containsSub_nil]
  rfl

/-- C5 amended: for a search term containing no SQL `LIKE` wildcard
characters (`%`, `_`), the filter is exactly case-insensitive substring
matching: every returned item matches the term as a substring of its title
or description, and the returned total counts exactly the stored items
matching it. -/
theorem C5_amended_wildcard_free_search (db : DB) (q : String)
    (limit offset : Nat) (sb ord : Option String)
    (hq : noWildcards q.toList = true) :
    (∀ it ∈ (get_items db (some q) limit offset sb ord).1,
      ciSubstrMatch q it = true) ∧
    (get_items db (some q) limit offset sb ord).2 =
      (db.items.filter fun it => ciSubstrMatch q it).length := by
  constructor
  · intro it hmem
    have h1 := mem_get_items_fst db (some q) limit offset sb ord hmem
    by_cases hs : (q == "") = true
    · rw [eq_of_beq hs]
      exact ciSubstrMatch_empty it
    · have h2 : it ∈ db.items.filter (matchesSearch q) := by
        have h1b : it ∈ (if q == "" then db.items
            else db.items.filter (matchesSearch q)) := h1
        rw [if_neg hs] at h1b
        exact h1b
      have h3 := (List.mem_filter.mp h2).2
      rw [← matchesSearch_eq_ciSubstr q hq it]
      exact h3
  · show (filteredItems db (some q)).length = _
    by_cases hs : (q == "") = true
    · show (if q == "" then db.items
          else db.items.filter (matchesSearch q)).length = _
      rw [if_pos hs, eq_of_beq hs]
      rw [List.filter_eq_self.mpr fun a _ => ciSubstrMatch_empty a]
    · show (if q == "" then db.items
          else db.items.filter (matchesSearch q)).length = _
      rw [if_neg hs]
      rw [List.filter_congr fun a _ => matchesSearch_eq_ciSubstr q hq a]

/-- The widget item and store of the C5 witness. -/
def widgetItem : Item :=
  { id := 1, title := "Blue Widget", description := none, owner_id := 1 }

/-- Store for the C5 witness. -/
def dbWidget : DB :=
  { users := [bobUser], items := [widgetItem], nextItemId := 2 }

/-- Witness for the amended C5 at the wildcard-free term `widget`. -/
theorem C5_witness :
    noWildcards ("widget" : String).toList = true ∧
    (∀ it ∈ (get_items dbWidget (some "widget") 10 0 (some "id")
        (some "asc")).1, ciSubstrMatch "widget" it = true) ∧
    (get_items dbWidget (some "widget") 10 0 (some "id") (some "asc")).2 =
      (dbWidget.items.filter fun it => ciSubstrMatch "widget" it).length := by
  have h := C5_amended_wildcard_free_search dbWidget "widget" 10 0 (some "id")
    (some "asc") (by decide)
  exact ⟨by decide, h.1, h.2⟩

end Assignments
